import Mathlib

/-!
# Formal model of the globe-network renderer

This file embeds, over the real numbers, the scene-construction and
per-frame-update logic of the portfolio website's globe visualization.  Two
script variants exist in the repository:

* the "uniform-random" variant (`initEarth` with `Math.random()`-sampled
  spherical node positions, slerp-interpolated connections, a global
  connection cap of 800, long arcs selected by a bounded retry loop, and a
  throttled per-frame pulse update), and
* the "Fibonacci" variant (`initEarth` with a Fibonacci-sphere node layout,
  index-window random sampling for short connections with a per-node cap,
  `createArc` long arcs, pointer-smoothed rotation and a star-ripple effect).

Machine floating-point numbers are modelled as real numbers (every float is a
real; float comparisons are the real comparisons up to the rounding slack the
specification's "within floating-point tolerance" wording already grants).
`Math.random()` is modelled as an arbitrary stream `rand : ℕ → ℝ` consumed in
program order, so all theorems hold for every possible sequence of draws.
NaN-sensitive code (the star-ripple update) is modelled over `Option ℝ`, with
`none` playing the role of IEEE NaN.
-/

open Real

noncomputable section

/-- 3-dimensional vectors, as used by `THREE.Vector3`. -/
abbrev V3 : Type := ℝ × ℝ × ℝ

/-- Dot product of two vectors (`Vector3.dot`). -/
def dotV (p q : V3) : ℝ := p.1 * q.1 + p.2.1 * q.2.1 + p.2.2 * q.2.2

/-- Squared Euclidean norm of a vector. -/
def normSq (p : V3) : ℝ := p.1 ^ 2 + p.2.1 ^ 2 + p.2.2 ^ 2

/-- Euclidean norm (`Vector3.length`). -/
def norm3 (p : V3) : ℝ := Real.sqrt (normSq p)

/-- Vector addition. -/
def vadd (p q : V3) : V3 := (p.1 + q.1, p.2.1 + q.2.1, p.2.2 + q.2.2)

/-- Scalar multiple of a vector (`Vector3.multiplyScalar`). -/
def smulV (a : ℝ) (p : V3) : V3 := (a * p.1, a * p.2.1, a * p.2.2)

/-- `Vector3.normalize`: divide by the length, leaving the zero vector
unchanged (three.js divides by `length || 1`). -/
def normalizeV (p : V3) : V3 :=
  if norm3 p = 0 then p else smulV (1 / norm3 p) p

/-- `Vector3.lerp`: componentwise linear interpolation
`this + (v - this) * alpha`. -/
def lerpV (p q : V3) (t : ℝ) : V3 :=
  (p.1 + (q.1 - p.1) * t, p.2.1 + (q.2.1 - p.2.1) * t, p.2.2 + (q.2.2 - p.2.2) * t)

/-- `Vector3.distanceTo`: Euclidean (chord) distance between two points. -/
def distanceTo (p q : V3) : ℝ :=
  Real.sqrt ((p.1 - q.1) ^ 2 + (p.2.1 - q.2.1) ^ 2 + (p.2.2 - q.2.2) ^ 2)

/-- `Vector3.applyAxisAngle` for the fixed axis `(0, 1, 0)`: rotation about
the y-axis by angle `θ`. -/
def rotateY (θ : ℝ) (p : V3) : V3 :=
  (p.1 * Real.cos θ + p.2.2 * Real.sin θ, p.2.1,
   -(p.1 * Real.sin θ) + p.2.2 * Real.cos θ)

/-- Node position of the uniform-random variant: `theta = rand * 2π`,
`phi = arccos(rand * 2 - 1)`, radius `1.005`, position
`(r sin φ cos θ, r sin φ sin θ, r cos φ)` (`initEarth`, uniform variant).
`u` and `v` are the two `Math.random()` draws. -/
def nodePositionA (u v : ℝ) : V3 :=
  let theta := u * (2 * π)
  let phi := Real.arccos (v * 2 - 1)
  ((201 / 200) * Real.sin phi * Real.cos theta,
   (201 / 200) * Real.sin phi * Real.sin theta,
   (201 / 200) * Real.cos phi)

/-- Node position of the Fibonacci variant: `phi = arccos(-1 + 2i/N)`,
`theta = sqrt(N·π) · phi`, radius `1.005`, position
`(r cos θ sin φ, r sin θ sin φ, r cos φ)` (`initEarth`, Fibonacci variant). -/
def nodePositionB (i N : ℕ) : V3 :=
  let phi := Real.arccos (-1 + (2 * (i : ℝ)) / (N : ℝ))
  let theta := Real.sqrt ((N : ℝ) * π) * phi
  ((201 / 200) * Real.cos theta * Real.sin phi,
   (201 / 200) * Real.sin theta * Real.sin phi,
   (201 / 200) * Real.cos phi)

/-- Great-circle (slerp) interpolated direction of the uniform-random
variant's connection loop: `angle = arccos(p1 · p2)`,
`a = sin((1 − t) · angle) / sin(angle)`, `b = sin(t · angle) / sin(angle)`,
direction `(a · p1 + b · p2).normalize()` (`initEarth`, uniform variant; the
subsequent `multiplyScalar` altitude scaling is omitted here). -/
def slerpDir (p1 p2 : V3) (t : ℝ) : V3 :=
  let angle := Real.arccos (dotV p1 p2)
  let sinAngle := Real.sin angle
  let a := Real.sin ((1 - t) * angle) / sinAngle
  let b := Real.sin (t * angle) / sinAngle
  normalizeV (vadd (smulV a p1) (smulV b p2))

/-- Direction used by `createArc` in the Fibonacci variant: normalized
componentwise linear interpolation `p1.lerp(p2, t).normalize()`.  (The code
also computes `angle = p1.angleTo(p2)` but never uses it.) -/
def createArcDir (p1 p2 : V3) (t : ℝ) : V3 := normalizeV (lerpV p1 p2 t)

/-- Full `createArc` sample point: the normalized lerp direction scaled by
`1.0 + altitude * sin(t * π)`. -/
def createArcPoint (p1 p2 : V3) (altitude t : ℝ) : V3 :=
  smulV (1 + altitude * Real.sin (t * π)) (createArcDir p1 p2 t)

/-- Indexing into the node-position list (`nodePositions[i]`); the indices
produced by the source loops are always in range, so the out-of-range default
is irrelevant. -/
def nth (ps : List V3) (i : ℕ) : V3 := ps.getD i (0, 0, 0)

/-- The index pairs `(i, j)`, `i < j`, visited by the uniform variant's nested
connection loops, in loop order. -/
def allPairs (n : ℕ) : List (ℕ × ℕ) :=
  (List.range n).flatMap fun i => ((List.range n).filter fun j => i < j).map fun j => (i, j)

/-- The uniform variant's connection-selection loop (`initEarth`, uniform
variant): walk the pairs in order, stop outright once `connectionCount`
reaches `maxConnections = 800` (both loop conditions re-check it), and create
a connection when `distance < 0.5 && Math.random() > 0.85`.  `cnt` is the
running `connectionCount` and `r` indexes the random stream (consumed only
when the distance test passes, per `&&` short-circuiting). -/
def connectLoopA (ps : List V3) (rand : ℕ → ℝ) :
    List (ℕ × ℕ) → ℕ → ℕ → List (ℕ × ℕ)
  | [], _, _ => []
  | (i, j) :: rest, cnt, r =>
    if 800 ≤ cnt then []
    else if distanceTo (nth ps i) (nth ps j) < 0.5 then
      if 0.85 < rand r then (i, j) :: connectLoopA ps rand rest (cnt + 1) (r + 1)
      else connectLoopA ps rand rest cnt (r + 1)
    else connectLoopA ps rand rest cnt r

/-- All short connections built by the uniform variant. -/
def connectionsA (ps : List V3) (rand : ℕ → ℝ) : List (ℕ × ℕ) :=
  connectLoopA ps rand (allPairs ps.length) 0 0

/-- The Fibonacci variant's per-node sampling loop (`initEarth`, Fibonacci
variant): 30 random index-window probes
`idx = (i + ⌊rand·200⌋ - 100 + n) % n`, skip `i = idx`, connect when
`dist < 0.35`, and `break` as soon as the per-node `connections` counter
exceeds 4.  Returns the connections created for node `i` and the next random
index. -/
def sampleLoopB (ps : List V3) (rand : ℕ → ℝ) (i : ℕ) :
    ℕ → ℕ → ℕ → List (ℕ × ℕ) × ℕ
  | 0, _, r => ([], r)
  | fuel + 1, conns, r =>
    let idx := ((i : ℤ) + ⌊rand r * 200⌋ - 100 + ps.length).toNat % ps.length
    if i = idx then sampleLoopB ps rand i fuel conns (r + 1)
    else if distanceTo (nth ps i) (nth ps idx) < 0.35 then
      if 4 < conns + 1 then ([(i, idx)], r + 1)
      else
        let res := sampleLoopB ps rand i fuel (conns + 1) (r + 1)
        ((i, idx) :: res.1, res.2)
    else if 4 < conns then ([], r + 1)
    else sampleLoopB ps rand i fuel conns (r + 1)

/-- The Fibonacci variant's outer connection loop: run `sampleLoopB` with 30
probes and a zeroed per-node counter for each node index, threading the
random stream; the result is the per-node connection lists. -/
def nodeLoopB (ps : List V3) (rand : ℕ → ℝ) : List ℕ → ℕ → List (List (ℕ × ℕ))
  | [], _ => []
  | i :: rest, r =>
    let res := sampleLoopB ps rand i 30 0 r
    res.1 :: nodeLoopB ps rand rest res.2

/-- Per-node short-connection lists of the Fibonacci variant. -/
def connectionsB (ps : List V3) (rand : ℕ → ℝ) : List (List (ℕ × ℕ)) :=
  nodeLoopB ps rand (List.range ps.length) 0

/-- The uniform variant's long-arc resampling loop (`initEarth`, uniform
variant): `while (dist(idx1, idx2) < 1.2 && attempts < 10)` redraw
`idx2 = ⌊rand · n⌋` and increment `attempts`.  Returns the final `idx2` and
the final `attempts` counter. -/
def resampleFar (ps : List V3) (rand : ℕ → ℝ) (idx1 idx2 r attempts : ℕ) :
    ℕ × ℕ :=
  if h : distanceTo (nth ps idx1) (nth ps idx2) < 1.2 ∧ attempts < 10 then
    resampleFar ps rand idx1 (⌊rand r * (ps.length : ℝ)⌋.toNat) (r + 1) (attempts + 1)
  else (idx2, attempts)
termination_by 10 - attempts
decreasing_by omega

/-- One long-arc endpoint selection of the uniform variant: draw `idx1` and
`idx2`, then run the bounded resampling loop.  Returns
`(idx1, idx2, attempts)`. -/
def pickLongArcA (ps : List V3) (rand : ℕ → ℝ) (r : ℕ) : ℕ × ℕ × ℕ :=
  let idx1 := (⌊rand r * (ps.length : ℝ)⌋).toNat
  let idx2 := (⌊rand (r + 1) * (ps.length : ℝ)⌋).toNat
  let res := resampleFar ps rand idx1 idx2 (r + 2) 0
  (idx1, res.1, res.2)

/-- The Fibonacci variant's long-arc selection (`initEarth`, Fibonacci
variant): 30 rounds of drawing `i1, i2`; an arc is created only when
`i1 !== i2` and `dist > 1.0` (no retries). -/
def longArcsB (ps : List V3) (rand : ℕ → ℝ) : ℕ → ℕ → List (ℕ × ℕ)
  | 0, _ => []
  | k + 1, r =>
    let i1 := (⌊rand r * (ps.length : ℝ)⌋).toNat
    let i2 := (⌊rand (r + 1) * (ps.length : ℝ)⌋).toNat
    if i1 ≠ i2 ∧ 1 < distanceTo (nth ps i1) (nth ps i2) then
      (i1, i2) :: longArcsB ps rand k (r + 2)
    else longArcsB ps rand k (r + 2)

/-- Guarded slerp sample of the uniform variant's scene-build loops: the
point is pushed (and the division by `sin(angle)` performed) only when
`sinAngle < 0.001` fails, otherwise the iteration `continue`s. -/
def interpPointBuild (p1 p2 : V3) (t radiusMult : ℝ) : Option V3 :=
  let angle := Real.arccos (dotV p1 p2)
  let sinAngle := Real.sin angle
  if sinAngle < 0.001 then none
  else some (smulV radiusMult (normalizeV (vadd
    (smulV (Real.sin ((1 - t) * angle) / sinAngle) p1)
    (smulV (Real.sin (t * angle) / sinAngle) p2))))

/-- Guarded slerp sample of the uniform variant's per-frame curve-geometry
recomputation (`animate`): the point is pushed only when
`sinAngle > 0.001`. -/
def interpPointFrame (p1 p2 : V3) (t radiusMult : ℝ) : Option V3 :=
  let angle := Real.arccos (dotV p1 p2)
  let sinAngle := Real.sin angle
  if 0.001 < sinAngle then
    some (smulV radiusMult (normalizeV (vadd
      (smulV (Real.sin ((1 - t) * angle) / sinAngle) p1)
      (smulV (Real.sin (t * angle) / sinAngle) p2))))
  else none

/-- Per-frame rotation update of the uniform variant (`animate`):
`earth.rotation.y += 0.002`. -/
def rotStepA (ry : ℝ) : ℝ := ry + 0.002

/-- Rotation accumulator of the uniform variant after `n` frames. -/
def rotAfterA (n : ℕ) : ℝ := rotStepA^[n] 0

/-- Per-frame rotation update of the Fibonacci variant (`animate`), state
`(rotation.y, rotation.x)`:
`rotation.y += 0.0008; rotation.y += mouseX * 0.08;`
`rotation.x += (mouseY * 0.05 - rotation.x) * 0.05`. -/
def rotStepB (mouseX mouseY : ℝ) (s : ℝ × ℝ) : ℝ × ℝ :=
  (s.1 + 0.0008 + mouseX * 0.08, s.2 + (mouseY * 0.05 - s.2) * 0.05)

/-- Rotation state of the Fibonacci variant after `n` frames with no pointer
input (`mouseX = mouseY = 0`, their initial values). -/
def rotAfterB (n : ℕ) : ℝ × ℝ := (rotStepB 0 0)^[n] (0, 0)

/-- Node pulse factor (`animate`, uniform variant): recomputed from the
sinusoid when `frameCount % 2 === 0`, otherwise the ternary yields the
constant `1.0`. -/
def nodePulse (frameCount : ℕ) (time pulseSpeed pulsePhase : ℝ) : ℝ :=
  if frameCount % 2 = 0 then Real.sin (time * pulseSpeed + pulsePhase) * 0.4 + 0.6
  else 1.0

/-- Node instance scale written into the matrix every frame:
`0.01 * pulse`. -/
def nodeScale (frameCount : ℕ) (time pulseSpeed pulsePhase : ℝ) : ℝ :=
  0.01 * nodePulse frameCount time pulseSpeed pulsePhase

/-- Connection material opacity after a frame (`animate`, uniform variant):
assigned from the sinusoid when `frameCount % 2 === 0`, otherwise left at its
previous value. -/
def connOpacity (frameCount : ℕ) (time pulseSpeed pulsePhase prev : ℝ) : ℝ :=
  if frameCount % 2 = 0 then Real.sin (time * pulseSpeed + pulsePhase) * 0.25 + 0.6
  else prev

/-- Node material emissive intensity after a frame (`animate`, uniform
variant): assigned from the global pulse when `frameCount % 2 === 0`,
otherwise left at its previous value. -/
def nodeEmissive (frameCount : ℕ) (time prev : ℝ) : ℝ :=
  if frameCount % 2 = 0 then 1.5 * (Real.sin (time * 0.8) * 0.3 + 0.7) else prev

/-- Earth material state: color and emissive, as hex values. -/
structure EarthMaterial where
  color : ℕ
  emissive : ℕ
  deriving DecidableEq

/-- A scene state seen by the texture-error callback: the optional `earth`
mesh material plus all remaining state (opaque to the callback). -/
structure TexSceneState (ω : Type) where
  earthMat : Option EarthMaterial
  rest : ω
  deriving DecidableEq

/-- Outcome of running a JavaScript callback: a result, or an uncaught
`ReferenceError` for an undeclared identifier. -/
inductive JsOutcome (α : Type) where
  | ok (a : α)
  | refError (name : String)
  deriving DecidableEq

/-- Module-level variable names declared by the uniform-random script
(`let scene, camera, renderer, earth, dataNodes, connections, flowLines,
orbitalRings; let time`). -/
def declaredGlobalsA : List String :=
  ["scene", "camera", "renderer", "earth", "dataNodes", "connections",
   "flowLines", "orbitalRings", "time"]

/-- Module-level variable names declared by the Fibonacci script
(`let scene, camera, renderer, earthGroup; let time`) — note that `earth` is
not among them. -/
def declaredGlobalsB : List String :=
  ["scene", "camera", "renderer", "earthGroup", "time"]

/-- The `loadEarthTexture` error callback: evaluating `earth && earth.material`
first resolves the identifier `earth`; if it is not a declared variable the
callback dies with a `ReferenceError`, otherwise, when the mesh exists, the
material's color is set to `0x2233ff` and its emissive to `0x112244`, leaving
all other state untouched. -/
def loadEarthTextureOnError {ω : Type} (declared : List String)
    (s : TexSceneState ω) : JsOutcome (TexSceneState ω) :=
  if "earth" ∈ declared then
    match s.earthMat with
    | some _ => .ok ⟨some ⟨0x2233ff, 0x112244⟩, s.rest⟩
    | none => .ok s
  else .refError "earth"

/-- Pointer-blend x-rotation update (Fibonacci variant, `animate`):
`rotation.x += (mouseY * 0.05 - rotation.x) * 0.05`. -/
def rotXStep (mouseY rotX : ℝ) : ℝ := rotX + (mouseY * 0.05 - rotX) * 0.05

/-- JavaScript number with NaN: `none` is NaN, `some x` a finite value. -/
abbrev Jv : Type := Option ℝ

/-- NaN-propagating addition. -/
def jAdd : Jv → Jv → Jv
  | some a, some b => some (a + b)
  | _, _ => none

/-- NaN-propagating subtraction. -/
def jSub : Jv → Jv → Jv
  | some a, some b => some (a - b)
  | _, _ => none

/-- NaN-propagating multiplication. -/
def jMul : Jv → Jv → Jv
  | some a, some b => some (a * b)
  | _, _ => none

/-- NaN-propagating division; a zero denominator yields NaN.  (In the ripple
update, the only zero-denominator case is `0 / 0` — the denominator is the
Euclidean norm of the displacement whose component is the numerator — which
is IEEE NaN.) -/
def jDiv : Jv → Jv → Jv
  | some a, some b => if b = 0 then none else some (a / b)
  | _, _ => none

/-- Per-star, per-frame state of the star-ripple effect: velocity and
rendered position components. -/
structure StarState where
  vx : Jv
  vy : Jv
  px : Jv
  py : Jv

/-- One frame of the Fibonacci variant's star-ripple update for one star
(`animate`): the cursor maps to world coordinates
`(mouseX * 15, -mouseY * 10)`; when the distance from the cursor to the
star's (never-mutated) base position `(ix, iy)` is below 3.0, the velocity is
kicked by `(d/dist) * (3 - dist) * 0.02` componentwise — with no guard
against `dist = 0` — then damped by 0.95, and the rendered position is
spring-returned toward the base position. -/
def rippleStep (mouseX mouseY ix iy : ℝ) (s : StarState) : StarState :=
  let cursorWorldX := mouseX * 15
  let cursorWorldY := -mouseY * 10
  let dx := cursorWorldX - ix
  let dy := cursorWorldY - iy
  let dist := Real.sqrt (dx * dx + dy * dy)
  let force := (3 - dist) * 0.02
  let v1x := if dist < 3 then jSub s.vx (jMul (jDiv (some dx) (some dist)) (some force))
    else s.vx
  let v1y := if dist < 3 then jSub s.vy (jMul (jDiv (some dy) (some dist)) (some force))
    else s.vy
  let v2x := jMul v1x (some 0.95)
  let v2y := jMul v1y (some 0.95)
  ⟨v2x, v2y,
    jAdd s.px (jAdd v2x (jMul (jSub (some ix) s.px) (some 0.02))),
    jAdd s.py (jAdd v2y (jMul (jSub (some iy) s.py) (some 0.02)))⟩

/-- Run `n` ripple frames with a per-frame stream of pointer positions. -/
def rippleFrames (seq : ℕ → ℝ × ℝ) (ix iy : ℝ) : ℕ → StarState → StarState
  | 0, s => s
  | n + 1, s => rippleFrames seq ix iy n (rippleStep (seq n).1 (seq n).2 ix iy s)

/-- Two nearby test points (chord distance `1/10`), used by concrete
witnesses. -/
def psPair : List V3 := [(0, 0, 0), (1/10, 0, 0)]

/-- Constant random stream returning `0.9`. -/
def randConst09 : ℕ → ℝ := fun _ => 0.9

/-- Constant random stream returning `0.505` (so `⌊0.505·200⌋ = 101`). -/
def randConst0505 : ℕ → ℝ := fun _ => 0.505

/-- Two far-apart test points (chord distance `2`), used by concrete
witnesses. -/
def psFar : List V3 := [(0, 0, 0), (2, 0, 0)]

/-- Random stream drawing index 0 first and index 1 afterwards (for a
2-element node list). -/
def randPick : ℕ → ℝ := fun n => if n = 0 then 0 else 1/2

/-- Two points on the sphere of radius `1.005` whose chord distance is
exactly `1.2`: `(1.005, 0, 0)` and `(x₀, √(1.005² − x₀²), 0)` with
`x₀ = 3867/13400` chosen so that `2·1.005·(1.005 − x₀) = 1.2²`. -/
def psCounter : List V3 :=
  [(201/200, 0, 0),
   (3867/13400, Real.sqrt ((201/200) ^ 2 - (3867/13400) ^ 2), 0)]

end

section C1Lemmas

/-- Pythagoras-style computation: the squared norm of a spherical-coordinate
point of radius `r` is `r ^ 2`. -/
theorem normSq_spherical (r a b : ℝ) :
    normSq (r * Real.sin a * Real.cos b, r * Real.sin a * Real.sin b,
      r * Real.cos a) = r ^ 2 := by
  have h1 := Real.sin_sq_add_cos_sq a
  have h2 := Real.sin_sq_add_cos_sq b
  simp only [normSq]
  linear_combination r ^ 2 * Real.sin a ^ 2 * h2 + r ^ 2 * h1

/-- Variant with `cos θ` and `sin θ` swapped in the first two components. -/
theorem normSq_spherical' (r a b : ℝ) :
    normSq (r * Real.cos b * Real.sin a, r * Real.sin b * Real.sin a,
      r * Real.cos a) = r ^ 2 := by
  have h1 := Real.sin_sq_add_cos_sq a
  have h2 := Real.sin_sq_add_cos_sq b
  simp only [normSq]
  linear_combination r ^ 2 * Real.sin a ^ 2 * h2 + r ^ 2 * h1

/-- A point whose squared norm is `(201/200)²` has norm `201/200`. -/
theorem norm3_eq_radius {v : V3} (h : normSq v = (201 / 200) ^ 2) :
    norm3 v = 201 / 200 := by
  rw [norm3, h, show ((201 : ℝ) / 200) ^ 2 = (201 / 200) * (201 / 200) by ring,
    Real.sqrt_mul_self (by norm_num)]

theorem norm3_nodePositionA (u v : ℝ) : norm3 (nodePositionA u v) = 201 / 200 :=
  norm3_eq_radius (normSq_spherical _ _ _)

theorem norm3_nodePositionB (i N : ℕ) : norm3 (nodePositionB i N) = 201 / 200 :=
  norm3_eq_radius (normSq_spherical' _ _ _)

end C1Lemmas

/-- **C1.** At scene construction, every generated node position has Euclidean
norm equal to the intended radius 1.005, in both the uniform-random variant
(`nodePositionA`, any pair of random draws) and the Fibonacci-sphere variant
(`nodePositionB`, any index and node count). -/
theorem node_positions_at_intended_radius :
    (∀ u v : ℝ, norm3 (nodePositionA u v) = 1.005) ∧
    (∀ i N : ℕ, norm3 (nodePositionB i N) = 1.005) := by
  norm_num only
  exact ⟨norm3_nodePositionA, norm3_nodePositionB⟩

section VectorLemmas

theorem normSq_nonneg (v : V3) : 0 ≤ normSq v := by
  unfold normSq; positivity

theorem normSq_smul (a : ℝ) (v : V3) : normSq (smulV a v) = a ^ 2 * normSq v := by
  simp only [normSq, smulV]; ring

theorem normSq_comb (a b : ℝ) (p q : V3) :
    normSq (vadd (smulV a p) (smulV b q)) =
      a ^ 2 * normSq p + b ^ 2 * normSq q + 2 * a * b * dotV p q := by
  simp only [normSq, vadd, smulV, dotV]; ring

theorem normSq_eq_one_of_norm3 {v : V3} (h : norm3 v = 1) : normSq v = 1 := by
  have := Real.sqrt_eq_one.mp h
  simpa [norm3] using this

theorem norm3_eq_one_of_normSq {v : V3} (h : normSq v = 1) : norm3 v = 1 := by
  rw [norm3, h, Real.sqrt_one]

theorem normalizeV_of_norm3_one {v : V3} (h : norm3 v = 1) : normalizeV v = v := by
  rw [normalizeV, if_neg (by rw [h]; norm_num), h]
  obtain ⟨x, y, z⟩ := v
  simp [smulV]

theorem norm3_normalizeV {v : V3} (h : 0 < normSq v) : norm3 (normalizeV v) = 1 := by
  have hs : 0 < norm3 v := Real.sqrt_pos.mpr h
  rw [normalizeV, if_neg (ne_of_gt hs), norm3, normSq_smul]
  have hsq : norm3 v ^ 2 = normSq v := Real.sq_sqrt (le_of_lt h)
  rw [show (1 / norm3 v) ^ 2 * normSq v = normSq v / norm3 v ^ 2 by ring, hsq,
    div_self (ne_of_gt h), Real.sqrt_one]

/-- Spherical-interpolation identity: for `α + β = θ`,
`sin²α + sin²β + 2·sinα·sinβ·cos(α+β) = sin²(α+β)`. -/
theorem sin_sq_slerp (α β : ℝ) :
    Real.sin α ^ 2 + Real.sin β ^ 2 +
      2 * Real.sin α * Real.sin β * Real.cos (α + β) = Real.sin (α + β) ^ 2 := by
  rw [Real.sin_add, Real.cos_add]
  linear_combination (-(Real.sin α ^ 2)) * Real.sin_sq_add_cos_sq β +
    (-(Real.sin β ^ 2)) * Real.sin_sq_add_cos_sq α

end VectorLemmas

section C2Lemmas

/-- The un-normalized slerp combination of two unit vectors is itself a unit
vector, for every parameter `t`. -/
theorem normSq_slerp_comb {p1 p2 : V3} (h1 : normSq p1 = 1) (h2 : normSq p2 = 1)
    (hlo : -1 < dotV p1 p2) (hhi : dotV p1 p2 < 1) (t : ℝ) :
    normSq (vadd
      (smulV (Real.sin ((1 - t) * Real.arccos (dotV p1 p2)) /
        Real.sin (Real.arccos (dotV p1 p2))) p1)
      (smulV (Real.sin (t * Real.arccos (dotV p1 p2)) /
        Real.sin (Real.arccos (dotV p1 p2))) p2)) = 1 := by
  set θ := Real.arccos (dotV p1 p2) with hθ
  have hcos : Real.cos θ = dotV p1 p2 :=
    Real.cos_arccos (le_of_lt hlo) (le_of_lt hhi)
  have hpos : 0 < Real.sin θ := by
    rw [hθ, Real.sin_arccos]
    apply Real.sqrt_pos.mpr
    nlinarith
  have hne : Real.sin θ ≠ 0 := ne_of_gt hpos
  have hsum : (1 - t) * θ + t * θ = θ := by ring
  have hiden := sin_sq_slerp ((1 - t) * θ) (t * θ)
  rw [hsum] at hiden
  have key : Real.sin ((1 - t) * θ) ^ 2 + Real.sin (t * θ) ^ 2 +
      2 * Real.sin ((1 - t) * θ) * Real.sin (t * θ) * dotV p1 p2 =
      Real.sin θ ^ 2 := by
    linear_combination hiden - 2 * Real.sin ((1 - t) * θ) * Real.sin (t * θ) * hcos
  rw [normSq_comb, h1, h2]
  field_simp
  linear_combination Real.sin θ ^ 2 * key

theorem sin_arccos_pos {d : ℝ} (hlo : -1 < d) (hhi : d < 1) :
    0 < Real.sin (Real.arccos d) := by
  rw [Real.sin_arccos]
  apply Real.sqrt_pos.mpr
  nlinarith

theorem vadd_one_zero (p q : V3) : vadd (smulV 1 p) (smulV 0 q) = p := by
  obtain ⟨x, y, z⟩ := p
  obtain ⟨a, b, c⟩ := q
  simp [vadd, smulV]

theorem vadd_zero_one (p q : V3) : vadd (smulV 0 p) (smulV 1 q) = q := by
  obtain ⟨x, y, z⟩ := p
  obtain ⟨a, b, c⟩ := q
  simp [vadd, smulV]

theorem slerpDir_zero {p1 p2 : V3} (h1 : norm3 p1 = 1)
    (hlo : -1 < dotV p1 p2) (hhi : dotV p1 p2 < 1) : slerpDir p1 p2 0 = p1 := by
  have hne : Real.sin (Real.arccos (dotV p1 p2)) ≠ 0 :=
    ne_of_gt (sin_arccos_pos hlo hhi)
  simp only [slerpDir]
  rw [show (1 - (0:ℝ)) * Real.arccos (dotV p1 p2) = Real.arccos (dotV p1 p2) by ring,
    zero_mul, Real.sin_zero, div_self hne, zero_div, vadd_one_zero]
  exact normalizeV_of_norm3_one h1

theorem slerpDir_one {p1 p2 : V3} (h2 : norm3 p2 = 1)
    (hlo : -1 < dotV p1 p2) (hhi : dotV p1 p2 < 1) : slerpDir p1 p2 1 = p2 := by
  have hne : Real.sin (Real.arccos (dotV p1 p2)) ≠ 0 :=
    ne_of_gt (sin_arccos_pos hlo hhi)
  simp only [slerpDir]
  rw [show (1 - (1:ℝ)) * Real.arccos (dotV p1 p2) = 0 by ring, one_mul,
    Real.sin_zero, div_self hne, zero_div, vadd_zero_one]
  exact normalizeV_of_norm3_one h2

theorem norm3_slerpDir {p1 p2 : V3} (h1 : norm3 p1 = 1) (h2 : norm3 p2 = 1)
    (hlo : -1 < dotV p1 p2) (hhi : dotV p1 p2 < 1) (t : ℝ) :
    norm3 (slerpDir p1 p2 t) = 1 := by
  simp only [slerpDir]
  apply norm3_normalizeV
  rw [normSq_slerp_comb (normSq_eq_one_of_norm3 h1) (normSq_eq_one_of_norm3 h2) hlo hhi t]
  norm_num

theorem lerpV_zero (p q : V3) : lerpV p q 0 = p := by
  obtain ⟨x, y, z⟩ := p
  obtain ⟨a, b, c⟩ := q
  simp [lerpV]

theorem lerpV_one (p q : V3) : lerpV p q 1 = q := by
  obtain ⟨x, y, z⟩ := p
  obtain ⟨a, b, c⟩ := q
  simp [lerpV]

theorem normSq_lerpV_eq (p q : V3) (t : ℝ) :
    normSq (lerpV p q t) =
      (1 - t) ^ 2 * normSq p + t ^ 2 * normSq q + 2 * (1 - t) * t * dotV p q := by
  simp only [normSq, lerpV, dotV]; ring

theorem normSq_lerpV_pos {p1 p2 : V3} (h1 : normSq p1 = 1) (h2 : normSq p2 = 1)
    (hlo : -1 < dotV p1 p2) {t : ℝ} (ht0 : 0 ≤ t) (ht1 : t ≤ 1) :
    0 < normSq (lerpV p1 p2 t) := by
  rw [normSq_lerpV_eq, h1, h2]
  rcases lt_trichotomy t (1/2) with h | h | h
  · nlinarith [mul_pos (show (0:ℝ) < 1 - 2*t by linarith)
      (show (0:ℝ) < 1 - 2*t by linarith),
      mul_nonneg (mul_nonneg ht0 (show (0:ℝ) ≤ 1 - t by linarith))
        (show (0:ℝ) ≤ 1 + dotV p1 p2 by linarith)]
  · subst h; nlinarith
  · nlinarith [mul_pos (show (0:ℝ) < 2*t - 1 by linarith)
      (show (0:ℝ) < 2*t - 1 by linarith),
      mul_nonneg (mul_nonneg ht0 (show (0:ℝ) ≤ 1 - t by linarith))
        (show (0:ℝ) ≤ 1 + dotV p1 p2 by linarith)]

theorem createArcDir_zero {p1 : V3} (p2 : V3) (h1 : norm3 p1 = 1) :
    createArcDir p1 p2 0 = p1 := by
  rw [createArcDir, lerpV_zero]
  exact normalizeV_of_norm3_one h1

theorem createArcDir_one (p1 : V3) {p2 : V3} (h2 : norm3 p2 = 1) :
    createArcDir p1 p2 1 = p2 := by
  rw [createArcDir, lerpV_one]
  exact normalizeV_of_norm3_one h2

theorem norm3_createArcDir {p1 p2 : V3} (h1 : norm3 p1 = 1) (h2 : norm3 p2 = 1)
    (hlo : -1 < dotV p1 p2) {t : ℝ} (ht0 : 0 ≤ t) (ht1 : t ≤ 1) :
    norm3 (createArcDir p1 p2 t) = 1 :=
  norm3_normalizeV (normSq_lerpV_pos (normSq_eq_one_of_norm3 h1)
    (normSq_eq_one_of_norm3 h2) hlo ht0 ht1)

/-- Concrete evaluation of the uniform-random variant's slerp direction at
`p1 = (1,0,0)`, `p2 = (0,1,0)`, `t = 1/3`. -/
theorem slerpDir_example :
    slerpDir ((1:ℝ), 0, 0) (0, 1, 0) (1/3) = (Real.sqrt 3 / 2, 1/2, 0) := by
  have hdot : dotV ((1:ℝ), 0, 0) (0, 1, 0) = 0 := by norm_num [dotV]
  simp only [slerpDir]
  rw [hdot, Real.arccos_zero]
  rw [show (1 - 1/3 : ℝ) * (π/2) = π/3 by ring, show (1/3 : ℝ) * (π/2) = π/6 by ring,
    Real.sin_pi_div_two, Real.sin_pi_div_three, Real.sin_pi_div_six]
  have hv : vadd (smulV (Real.sqrt 3 / 2 / 1) ((1:ℝ), 0, 0))
      (smulV (1/2/1 : ℝ) ((0:ℝ), 1, 0)) = (Real.sqrt 3 / 2, 1/2, 0) := by
    simp [vadd, smulV]
  rw [hv]
  apply normalizeV_of_norm3_one
  apply norm3_eq_one_of_normSq
  have h3 : Real.sqrt 3 ^ 2 = 3 := Real.sq_sqrt (by norm_num)
  simp only [normSq]
  nlinarith [h3]

/-- Concrete evaluation of `createArc`'s direction at the same input. -/
theorem createArcDir_example :
    createArcDir ((1:ℝ), 0, 0) (0, 1, 0) (1/3) =
      smulV (1 / Real.sqrt (5/9)) (2/3, 1/3, 0) := by
  have hl : lerpV ((1:ℝ), 0, 0) (0, 1, 0) (1/3) = (2/3, 1/3, 0) := by
    norm_num [lerpV]
  have hns : normSq ((2/3 : ℝ), 1/3, 0) = 5/9 := by norm_num [normSq]
  have hn : norm3 ((2/3 : ℝ), 1/3, 0) = Real.sqrt (5/9) := by rw [norm3, hns]
  rw [createArcDir, hl, normalizeV, hn,
    if_neg (ne_of_gt (Real.sqrt_pos.mpr (by norm_num)))]

end C2Lemmas

/-- **C2 counterexample.** The Fibonacci variant's `createArc` does *not*
compute the interpolated direction by the great-circle formula
`(sin((1−t)·angle)·p1 + sin(t·angle)·p2) / sin(angle)`: at the distinct,
non-antipodal unit endpoints `p1 = (1,0,0)`, `p2 = (0,1,0)` and `t = 1/3`, its
normalized-linear-interpolation direction differs from that formula's value. -/
theorem createArc_direction_not_slerp_formula :
    createArcDir ((1:ℝ), 0, 0) (0, 1, 0) (1/3) ≠
      slerpDir ((1:ℝ), 0, 0) (0, 1, 0) (1/3) := by
  rw [createArcDir_example, slerpDir_example]
  intro h
  have h2 := congrArg (fun w : V3 => w.2.1) h
  simp only [smulV] at h2
  have hpos : 0 < Real.sqrt (5/9) := Real.sqrt_pos.mpr (by norm_num)
  have hsq : Real.sqrt (5/9) ^ 2 = 5/9 := Real.sq_sqrt (by norm_num)
  have hne : Real.sqrt (5/9) ≠ 0 := ne_of_gt hpos
  rw [div_mul_eq_mul_div, one_mul] at h2
  have h9 : Real.sqrt 9 = 3 := by
    rw [show (9:ℝ) = 3 ^ 2 by norm_num, Real.sqrt_sq (by norm_num)]
  have h5 : Real.sqrt 5 ^ 2 = 5 := Real.sq_sqrt (by norm_num)
  have h5nn : 0 ≤ Real.sqrt 5 := Real.sqrt_nonneg 5
  field_simp at h2
  rw [h9] at h2
  nlinarith [h5, h2, h5nn]

/-- **C2 (amended).** For distinct, non-antipodal unit endpoint directions
`p1`, `p2` (i.e. `-1 < p1 · p2 < 1`): the uniform-random variant's
great-circle interpolation `slerpDir` returns `p1` at `t = 0` and `p2` at
`t = 1` and is unit-norm for every `t` before altitude scaling; the Fibonacci
variant's `createArc` direction (normalized linear interpolation — not the
slerp formula) likewise returns `p1` at `t = 0`, `p2` at `t = 1`, and is
unit-norm for every `t ∈ [0,1]` before altitude scaling. -/
theorem interp_endpoints_and_unit_norm (p1 p2 : V3)
    (h1 : norm3 p1 = 1) (h2 : norm3 p2 = 1)
    (hlo : -1 < dotV p1 p2) (hhi : dotV p1 p2 < 1) :
    slerpDir p1 p2 0 = p1 ∧ slerpDir p1 p2 1 = p2 ∧
    (∀ t : ℝ, norm3 (slerpDir p1 p2 t) = 1) ∧
    createArcDir p1 p2 0 = p1 ∧ createArcDir p1 p2 1 = p2 ∧
    (∀ t : ℝ, 0 ≤ t → t ≤ 1 → norm3 (createArcDir p1 p2 t) = 1) :=
  ⟨slerpDir_zero h1 hlo hhi, slerpDir_one h2 hlo hhi,
    norm3_slerpDir h1 h2 hlo hhi,
    createArcDir_zero p2 h1, createArcDir_one p1 h2,
    fun _ ht0 ht1 => norm3_createArcDir h1 h2 hlo ht0 ht1⟩

/-- Witness for C2's amended theorem at `p1 = (1,0,0)`, `p2 = (0,1,0)`. -/
theorem interp_endpoints_and_unit_norm_witness :
    (norm3 ((1:ℝ), 0, 0) = 1 ∧ norm3 ((0:ℝ), 1, 0) = 1 ∧
      -1 < dotV ((1:ℝ), 0, 0) (0, 1, 0) ∧ dotV ((1:ℝ), 0, 0) (0, 1, 0) < 1) ∧
    (slerpDir ((1:ℝ), 0, 0) (0, 1, 0) 0 = (1, 0, 0) ∧
      slerpDir ((1:ℝ), 0, 0) (0, 1, 0) 1 = (0, 1, 0) ∧
      (∀ t : ℝ, norm3 (slerpDir ((1:ℝ), 0, 0) (0, 1, 0) t) = 1) ∧
      createArcDir ((1:ℝ), 0, 0) (0, 1, 0) 0 = (1, 0, 0) ∧
      createArcDir ((1:ℝ), 0, 0) (0, 1, 0) 1 = (0, 1, 0) ∧
      (∀ t : ℝ, 0 ≤ t → t ≤ 1 →
        norm3 (createArcDir ((1:ℝ), 0, 0) (0, 1, 0) t) = 1)) := by
  have e1 : norm3 ((1:ℝ), 0, 0) = 1 := by simp [norm3, normSq]
  have e2 : norm3 ((0:ℝ), 1, 0) = 1 := by simp [norm3, normSq]
  have e3 : -1 < dotV ((1:ℝ), 0, 0) (0, 1, 0) := by norm_num [dotV]
  have e4 : dotV ((1:ℝ), 0, 0) (0, 1, 0) < 1 := by norm_num [dotV]
  exact ⟨⟨e1, e2, e3, e4⟩, interp_endpoints_and_unit_norm _ _ e1 e2 e3 e4⟩

section C3Lemmas

/-- Every pair emitted by the uniform variant's connection loop passed the
`distance < 0.5` test. -/
theorem connectLoopA_mem_dist (ps : List V3) (rand : ℕ → ℝ) (l : List (ℕ × ℕ)) :
    ∀ (cnt r : ℕ) (pr : ℕ × ℕ), pr ∈ connectLoopA ps rand l cnt r →
      distanceTo (nth ps pr.1) (nth ps pr.2) < 0.5 := by
  induction l with
  | nil => intro cnt r pr h; simp [connectLoopA] at h
  | cons hd rest ih =>
    intro cnt r pr h
    obtain ⟨i, j⟩ := hd
    simp only [connectLoopA] at h
    split_ifs at h with h800 hdist hrand
    · simp at h
    · rcases List.mem_cons.mp h with h1 | hm
      · rw [h1]; exact hdist
      · exact ih (cnt + 1) (r + 1) pr hm
    · exact ih cnt (r + 1) pr h
    · exact ih cnt r pr h

/-- The uniform variant's connection loop never pushes the running count past
the global cap of 800. -/
theorem connectLoopA_length (ps : List V3) (rand : ℕ → ℝ) (l : List (ℕ × ℕ)) :
    ∀ cnt r : ℕ, cnt ≤ 800 → (connectLoopA ps rand l cnt r).length + cnt ≤ 800 := by
  induction l with
  | nil => intro cnt r h; simpa [connectLoopA]
  | cons hd rest ih =>
    intro cnt r hc
    obtain ⟨i, j⟩ := hd
    simp only [connectLoopA]
    split_ifs with h800 hdist hrand
    · simpa using hc
    · have := ih (cnt + 1) (r + 1) (by omega)
      simp only [List.length_cons]
      omega
    · exact ih cnt (r + 1) hc
    · exact ih cnt r hc

/-- Every pair emitted by the Fibonacci variant's per-node sampling loop has
distinct endpoints and passed the `dist < 0.35` test. -/
theorem sampleLoopB_mem (ps : List V3) (rand : ℕ → ℝ) (i : ℕ) :
    ∀ (fuel conns r : ℕ) (pr : ℕ × ℕ),
      pr ∈ (sampleLoopB ps rand i fuel conns r).1 →
      pr.1 ≠ pr.2 ∧ distanceTo (nth ps pr.1) (nth ps pr.2) < 0.35 := by
  intro fuel
  induction fuel with
  | zero => intro conns r pr h; simp [sampleLoopB] at h
  | succ fuel ih =>
    intro conns r pr h
    simp only [sampleLoopB] at h
    split_ifs at h with hskip hdist hbreak hstop
    · exact ih conns (r + 1) pr h
    · rcases List.mem_singleton.mp h with h1
      rw [h1]
      exact ⟨hskip, hdist⟩
    · rcases List.mem_cons.mp h with h1 | hm
      · rw [h1]; exact ⟨hskip, hdist⟩
      · exact ih (conns + 1) (r + 1) pr hm
    · simp at h
    · exact ih conns (r + 1) pr h

/-- The Fibonacci variant's per-node sampling loop emits at most `5 - conns`
further connections once `conns` have been counted. -/
theorem sampleLoopB_length (ps : List V3) (rand : ℕ → ℝ) (i : ℕ) :
    ∀ fuel conns r : ℕ, conns ≤ 4 →
      (sampleLoopB ps rand i fuel conns r).1.length ≤ 5 - conns := by
  intro fuel
  induction fuel with
  | zero => intro conns r h; simp [sampleLoopB]
  | succ fuel ih =>
    intro conns r hc
    simp only [sampleLoopB]
    split_ifs with hskip hdist hbreak hstop
    · exact ih conns (r + 1) hc
    · simp only [List.length_singleton]; omega
    · have := ih (conns + 1) (r + 1) (by omega)
      simp only [List.length_cons]
      omega
    · simp
    · exact ih conns (r + 1) hc

/-- Every per-node list produced by the Fibonacci variant's outer loop
satisfies the per-node cap and the distance threshold. -/
theorem nodeLoopB_mem (ps : List V3) (rand : ℕ → ℝ) :
    ∀ (idxs : List ℕ) (r : ℕ) (L : List (ℕ × ℕ)), L ∈ nodeLoopB ps rand idxs r →
      L.length ≤ 5 ∧ ∀ pr ∈ L, distanceTo (nth ps pr.1) (nth ps pr.2) < 0.35 := by
  intro idxs
  induction idxs with
  | nil => intro r L h; simp [nodeLoopB] at h
  | cons i rest ih =>
    intro r L h
    simp only [nodeLoopB] at h
    rcases List.mem_cons.mp h with h1 | hm
    · constructor
      · rw [h1]
        simpa using sampleLoopB_length ps rand i 30 0 r (by norm_num)
      · intro pr hpr
        rw [h1] at hpr
        exact (sampleLoopB_mem ps rand i 30 0 r pr hpr).2
    · exact ih _ L hm

end C3Lemmas

/-- **C3.** Every short connection created at scene-build time joins nodes at
chord distance strictly below the configured threshold — 0.5 in the
uniform-random variant, 0.35 in the Fibonacci variant — and the number of
connections never exceeds the configured cap: a global cap of 800 in the
uniform-random variant and a per-node cap (5, the `connections > 4` break) in
the Fibonacci variant.  Holds for every node-position list and every random
stream. -/
theorem short_connection_threshold_and_caps (ps : List V3) (rand : ℕ → ℝ) :
    (∀ pr ∈ connectionsA ps rand,
      distanceTo (nth ps pr.1) (nth ps pr.2) < 0.5) ∧
    (connectionsA ps rand).length ≤ 800 ∧
    (∀ L ∈ connectionsB ps rand, L.length ≤ 5 ∧
      ∀ pr ∈ L, distanceTo (nth ps pr.1) (nth ps pr.2) < 0.35) :=
  ⟨fun pr h => connectLoopA_mem_dist ps rand _ 0 0 pr h,
   by simpa using connectLoopA_length ps rand (allPairs ps.length) 0 0 (by norm_num),
   fun L h => nodeLoopB_mem ps rand _ 0 L h⟩

section C3Witness

/-- The chord distance between the two `psPair` points is `1/10`. -/
theorem distanceTo_psPair : distanceTo (nth psPair 0) (nth psPair 1) = 1/10 := by
  show distanceTo ((0:ℝ), 0, 0) ((1/10 : ℝ), 0, 0) = 1/10
  rw [distanceTo,
    show ((0:ℝ) - 1/10) ^ 2 + ((0:ℝ) - 0) ^ 2 + ((0:ℝ) - 0) ^ 2 = (1/10) ^ 2 by norm_num]
  exact Real.sqrt_sq (by norm_num)

/-- Concrete run of the uniform variant's connection loop on `psPair`. -/
theorem connectionsA_psPair : connectionsA psPair randConst09 = [(0, 1)] := by
  rw [connectionsA, show allPairs psPair.length = [(0, 1)] from rfl]
  simp only [connectLoopA]
  rw [if_neg (by norm_num : ¬ (800 ≤ 0)),
    if_pos (show distanceTo (nth psPair 0) (nth psPair 1) < 0.5 by
      rw [distanceTo_psPair]; norm_num),
    if_pos (show (0.85 : ℝ) < randConst09 0 by norm_num [randConst09])]

/-- The index-window probe of `sampleLoopB` on `psPair` with the constant
`0.505` stream always lands on index 1. -/
theorem sampleLoopB_idx_psPair (i r : ℕ) (hi : i ≤ 1) :
    (((i : ℕ) : ℤ) + ⌊randConst0505 r * 200⌋ - 100 + (psPair.length : ℤ)).toNat %
      psPair.length = (i + 1) % 2 := by
  rw [show randConst0505 r * 200 = ((101 : ℤ) : ℝ) by norm_num [randConst0505],
    Int.floor_intCast]
  interval_cases i <;> decide

/-- One pushing step of `sampleLoopB` on `psPair` for node 0 with the
constant `0.505` stream, below the per-node break. -/
theorem sampleLoopB_psPair_push (fuel conns r : ℕ) (hc : conns ≤ 3) :
    sampleLoopB psPair randConst0505 0 (fuel + 1) conns r =
      ((0, 1) :: (sampleLoopB psPair randConst0505 0 fuel (conns + 1) (r + 1)).1,
        (sampleLoopB psPair randConst0505 0 fuel (conns + 1) (r + 1)).2) := by
  simp only [sampleLoopB]
  rw [show (((0 : ℕ) : ℤ) + ⌊randConst0505 r * 200⌋ - 100 + (psPair.length : ℤ)).toNat %
      psPair.length = 1 by simpa using sampleLoopB_idx_psPair 0 r (by norm_num)]
  rw [if_neg (by norm_num : ¬ ((0 : ℕ) = 1)),
    if_pos (show distanceTo (nth psPair 0) (nth psPair 1) < 0.35 by
      rw [distanceTo_psPair]; norm_num),
    if_neg (show ¬ (4 < conns + 1) by omega)]

/-- The breaking step of `sampleLoopB` on `psPair` for node 0: the fifth
connection trips the `connections > 4` break. -/
theorem sampleLoopB_psPair_break (fuel r : ℕ) :
    sampleLoopB psPair randConst0505 0 (fuel + 1) 4 r = ([(0, 1)], r + 1) := by
  simp only [sampleLoopB]
  rw [show (((0 : ℕ) : ℤ) + ⌊randConst0505 r * 200⌋ - 100 + (psPair.length : ℤ)).toNat %
      psPair.length = 1 by simpa using sampleLoopB_idx_psPair 0 r (by norm_num)]
  rw [if_neg (by norm_num : ¬ ((0 : ℕ) = 1)),
    if_pos (show distanceTo (nth psPair 0) (nth psPair 1) < 0.35 by
      rw [distanceTo_psPair]; norm_num),
    if_pos (by norm_num : 4 < 4 + 1)]

/-- Full concrete run of `sampleLoopB` for node 0 on `psPair`: exactly five
connections are created, then the per-node cap breaks the loop. -/
theorem sampleLoopB_psPair_run :
    sampleLoopB psPair randConst0505 0 30 0 0 =
      ([(0, 1), (0, 1), (0, 1), (0, 1), (0, 1)], 5) := by
  rw [show (30 : ℕ) = 29 + 1 from rfl, sampleLoopB_psPair_push 29 0 0 (by norm_num)]
  rw [show (29 : ℕ) = 28 + 1 from rfl, sampleLoopB_psPair_push 28 1 1 (by norm_num)]
  rw [show (28 : ℕ) = 27 + 1 from rfl, sampleLoopB_psPair_push 27 2 2 (by norm_num)]
  rw [show (27 : ℕ) = 26 + 1 from rfl, sampleLoopB_psPair_push 26 3 3 (by norm_num)]
  rw [show (26 : ℕ) = 25 + 1 from rfl, sampleLoopB_psPair_break 25 4]

/-- The five-connection list for node 0 occurs in `connectionsB psPair`. -/
theorem connectionsB_psPair_mem :
    [((0:ℕ), (1:ℕ)), (0, 1), (0, 1), (0, 1), (0, 1)] ∈
      connectionsB psPair randConst0505 := by
  rw [connectionsB, show List.range psPair.length = [0, 1] from rfl]
  simp only [nodeLoopB]
  rw [sampleLoopB_psPair_run]
  exact List.mem_cons_self _ _

end C3Witness

/-- Witness for C3 at concrete inputs: on `psPair` with suitable random
streams, the uniform variant creates the connection `(0, 1)` (distance
`1/10 < 0.5`) and the Fibonacci variant's node 0 creates five connections
(the per-node cap) of distance `1/10 < 0.35`. -/
theorem short_connection_threshold_and_caps_witness :
    ((0, 1) ∈ connectionsA psPair randConst09 ∧
      distanceTo (nth psPair 0) (nth psPair 1) < 0.5) ∧
    (connectionsA psPair randConst09).length ≤ 800 ∧
    ([((0:ℕ), (1:ℕ)), (0, 1), (0, 1), (0, 1), (0, 1)] ∈
        connectionsB psPair randConst0505 ∧
      ([((0:ℕ), (1:ℕ)), (0, 1), (0, 1), (0, 1), (0, 1)] : List (ℕ × ℕ)).length ≤ 5 ∧
      ((0, 1) ∈ ([((0:ℕ), (1:ℕ)), (0, 1), (0, 1), (0, 1), (0, 1)] : List (ℕ × ℕ)) ∧
        distanceTo (nth psPair 0) (nth psPair 1) < 0.35)) := by
  have hmemA : (0, 1) ∈ connectionsA psPair randConst09 := by
    rw [connectionsA_psPair]; exact List.mem_singleton.mpr rfl
  have hmemB := connectionsB_psPair_mem
  have hmemL : ((0:ℕ), (1:ℕ)) ∈
      ([((0:ℕ), (1:ℕ)), (0, 1), (0, 1), (0, 1), (0, 1)] : List (ℕ × ℕ)) := by decide
  have w1 : distanceTo (nth psPair (0, 1).1) (nth psPair (0, 1).2) < 0.5 :=
    (short_connection_threshold_and_caps psPair randConst09).1 (0, 1) hmemA
  have w2 : (connectionsA psPair randConst09).length ≤ 800 :=
    (short_connection_threshold_and_caps psPair randConst09).2.1
  have w3 := (short_connection_threshold_and_caps psPair randConst0505).2.2 _ hmemB
  have w4 := w3.2 ((0 : ℕ), (1 : ℕ)) hmemL
  exact ⟨⟨hmemA, w1⟩, w2, hmemB, w3.1, hmemL, w4⟩

section C4Lemmas

/-- Exit condition of the uniform variant's resampling loop: when it stops,
either the pair is at chord distance at least 1.2 or the attempts counter
reached the budget. -/
theorem resampleFar_spec (ps : List V3) (rand : ℕ → ℝ) (idx1 : ℕ) :
    ∀ n idx2 r attempts : ℕ, 10 - attempts ≤ n →
      1.2 ≤ distanceTo (nth ps idx1)
          (nth ps (resampleFar ps rand idx1 idx2 r attempts).1) ∨
        10 ≤ (resampleFar ps rand idx1 idx2 r attempts).2 := by
  intro n
  induction n with
  | zero =>
    intro idx2 r attempts h
    rw [resampleFar, dif_neg (fun hc => absurd hc.2 (by omega))]
    right
    omega
  | succ n ih =>
    intro idx2 r attempts h
    by_cases hc : distanceTo (nth ps idx1) (nth ps idx2) < 1.2 ∧ attempts < 10
    · rw [resampleFar, dif_pos hc]
      exact ih (⌊rand r * (ps.length : ℝ)⌋.toNat) (r + 1) (attempts + 1) (by omega)
    · rw [resampleFar, dif_neg hc]
      rcases not_and_or.mp hc with h1 | h2
      · exact Or.inl (le_of_not_lt h1)
      · exact Or.inr (le_of_not_lt h2)

/-- The attempts counter of the resampling loop never exceeds the budget. -/
theorem resampleFar_le (ps : List V3) (rand : ℕ → ℝ) (idx1 : ℕ) :
    ∀ n idx2 r attempts : ℕ, 10 - attempts ≤ n → attempts ≤ 10 →
      (resampleFar ps rand idx1 idx2 r attempts).2 ≤ 10 := by
  intro n
  induction n with
  | zero =>
    intro idx2 r attempts h h10
    rw [resampleFar, dif_neg (fun hc => absurd hc.2 (by omega))]
    exact h10
  | succ n ih =>
    intro idx2 r attempts h h10
    by_cases hc : distanceTo (nth ps idx1) (nth ps idx2) < 1.2 ∧ attempts < 10
    · rw [resampleFar, dif_pos hc]
      exact ih (⌊rand r * (ps.length : ℝ)⌋.toNat) (r + 1) (attempts + 1) (by omega)
        (by omega)
    · rw [resampleFar, dif_neg hc]
      exact h10

/-- Every arc created by the Fibonacci variant's long-arc loop joins distinct
nodes at chord distance strictly above 1.0. -/
theorem longArcsB_mem (ps : List V3) (rand : ℕ → ℝ) :
    ∀ (k r : ℕ) (pr : ℕ × ℕ), pr ∈ longArcsB ps rand k r →
      pr.1 ≠ pr.2 ∧ 1 < distanceTo (nth ps pr.1) (nth ps pr.2) := by
  intro k
  induction k with
  | zero => intro r pr h; simp [longArcsB] at h
  | succ k ih =>
    intro r pr h
    simp only [longArcsB] at h
    split_ifs at h with hcond
    · rcases List.mem_cons.mp h with h1 | hm
      · rw [h1]; exact hcond
      · exact ih (r + 2) pr hm
    · exact ih (r + 2) pr h

end C4Lemmas

/-- **C4 (amended).** For every long-distance arc created at scene-build
time: in the uniform-random variant, either the chord distance of the
selected pair is **at least** the threshold 1.2 — the `while` loop also exits
when the distance equals the threshold exactly, so "exceeds" fails at that
boundary — or the loop ran out of its 10 resampling attempts and the arc was
built from the last pair drawn; in the Fibonacci variant every created arc's
chord distance strictly exceeds 1.0 (and there is no retry loop at all).
Holds for every node-position list and random stream. -/
theorem long_arc_far_or_budget_exhausted (ps : List V3) (rand : ℕ → ℝ) (r : ℕ) :
    (1.2 ≤ distanceTo (nth ps (pickLongArcA ps rand r).1)
        (nth ps (pickLongArcA ps rand r).2.1) ∨
      (pickLongArcA ps rand r).2.2 = 10) ∧
    (∀ (k r0 : ℕ) (pr : ℕ × ℕ), pr ∈ longArcsB ps rand k r0 →
      1 < distanceTo (nth ps pr.1) (nth ps pr.2)) := by
  constructor
  · have hspec := resampleFar_spec ps rand ((⌊rand r * (ps.length : ℝ)⌋).toNat) 10
      ((⌊rand (r + 1) * (ps.length : ℝ)⌋).toNat) (r + 2) 0 (by omega)
    have hle := resampleFar_le ps rand ((⌊rand r * (ps.length : ℝ)⌋).toNat) 10
      ((⌊rand (r + 1) * (ps.length : ℝ)⌋).toNat) (r + 2) 0 (by omega) (by omega)
    rcases hspec with h | h
    · exact Or.inl h
    · exact Or.inr (le_antisymm hle h)
  · intro k r0 pr h
    exact (longArcsB_mem ps rand k r0 pr h).2

/-- Witness for C4 at concrete inputs: on `psFar` (two nodes at chord
distance 2) with draws 0 and 1, the Fibonacci variant creates the long arc
`(0, 1)` and its distance strictly exceeds 1. -/
theorem long_arc_far_or_budget_exhausted_witness :
    ((0, 1) ∈ longArcsB psFar randPick 1 0) ∧
      1 < distanceTo (nth psFar 0) (nth psFar 1) := by
  have hd : distanceTo (nth psFar 0) (nth psFar 1) = 2 := by
    show distanceTo ((0:ℝ), 0, 0) ((2:ℝ), 0, 0) = 2
    rw [distanceTo,
      show ((0:ℝ) - 2) ^ 2 + ((0:ℝ) - 0) ^ 2 + ((0:ℝ) - 0) ^ 2 = 2 ^ 2 by norm_num]
    exact Real.sqrt_sq (by norm_num)
  have hf0 : (⌊randPick 0 * (psFar.length : ℝ)⌋).toNat = 0 := by
    rw [show randPick 0 * (psFar.length : ℝ) = ((0:ℤ):ℝ) by
        norm_num [randPick, psFar], Int.floor_intCast]
    rfl
  have hf1 : (⌊randPick 1 * (psFar.length : ℝ)⌋).toNat = 1 := by
    rw [show randPick 1 * (psFar.length : ℝ) = ((1:ℤ):ℝ) by
        norm_num [randPick, psFar], Int.floor_intCast]
    rfl
  have hmem : (0, 1) ∈ longArcsB psFar randPick 1 0 := by
    simp only [longArcsB]
    rw [hf0, hf1, if_pos ⟨by norm_num, by rw [hd]; norm_num⟩]
    exact List.mem_cons_self _ _
  exact ⟨hmem, (long_arc_far_or_budget_exhausted psFar randPick 0).2 1 0 (0, 1) hmem⟩

/-- **C4 counterexample.** On the on-sphere node pair `psCounter` (both
points at the node radius 1.005) the uniform variant's long-arc selection
exits its retry `while` loop immediately — zero attempts used, budget not
exhausted — with a pair whose chord distance is exactly the threshold 1.2,
not strictly above it; so the claim's disjunction "the chord distance
exceeds 1.2, or the retry budget was exhausted" fails on this build. -/
theorem long_arc_exactly_at_threshold :
    norm3 (nth psCounter 0) = 1.005 ∧ norm3 (nth psCounter 1) = 1.005 ∧
    distanceTo (nth psCounter 0) (nth psCounter 1) = 1.2 ∧
    pickLongArcA psCounter randPick 0 = (0, 1, 0) ∧
    ¬ (1.2 < distanceTo (nth psCounter 0) (nth psCounter 1)) ∧
    (pickLongArcA psCounter randPick 0).2.2 ≠ 10 := by
  have hy2 : Real.sqrt ((201/200 : ℝ) ^ 2 - (3867/13400) ^ 2) ^ 2 =
      (201/200 : ℝ) ^ 2 - (3867/13400) ^ 2 := Real.sq_sqrt (by norm_num)
  have h0 : nth psCounter 0 = ((201/200 : ℝ), 0, 0) := rfl
  have h1 : nth psCounter 1 =
      ((3867/13400 : ℝ), Real.sqrt ((201/200 : ℝ) ^ 2 - (3867/13400) ^ 2), 0) := rfl
  have n0 : norm3 (nth psCounter 0) = 1.005 := by
    rw [h0, show (1.005 : ℝ) = 201/200 by norm_num]
    exact norm3_eq_radius (by rw [normSq]; norm_num)
  have n1 : norm3 (nth psCounter 1) = 1.005 := by
    rw [h1, show (1.005 : ℝ) = 201/200 by norm_num]
    refine norm3_eq_radius ?_
    rw [normSq]
    simp only []
    nlinarith [hy2]
  have hd : distanceTo (nth psCounter 0) (nth psCounter 1) = 1.2 := by
    rw [h0, h1, distanceTo]
    rw [show ((201/200 : ℝ) - 3867/13400) ^ 2 +
        ((0:ℝ) - Real.sqrt ((201/200 : ℝ) ^ 2 - (3867/13400) ^ 2)) ^ 2 +
        ((0:ℝ) - 0) ^ 2 = (6/5 : ℝ) ^ 2 by nlinarith [hy2]]
    rw [Real.sqrt_sq (by norm_num)]
    norm_num
  have hf0 : (⌊randPick 0 * (psCounter.length : ℝ)⌋).toNat = 0 := by
    rw [show randPick 0 * (psCounter.length : ℝ) = ((0:ℤ):ℝ) by
        norm_num [randPick, psCounter], Int.floor_intCast]
    rfl
  have hf1 : (⌊randPick 1 * (psCounter.length : ℝ)⌋).toNat = 1 := by
    rw [show randPick 1 * (psCounter.length : ℝ) = ((1:ℤ):ℝ) by
        norm_num [randPick, psCounter], Int.floor_intCast]
    rfl
  have hpick : pickLongArcA psCounter randPick 0 = (0, 1, 0) := by
    simp only [pickLongArcA]
    rw [hf0, hf1]
    rw [resampleFar, dif_neg (fun hc => absurd hc.1 (by rw [hd]; norm_num))]
  refine ⟨n0, n1, hd, hpick, by rw [hd]; norm_num, by rw [hpick]; norm_num⟩

section C5Lemmas

theorem rotAfterA_eq (n : ℕ) : rotAfterA n = n * 0.002 := by
  induction n with
  | zero => simp [rotAfterA]
  | succ n ih =>
    have h : rotAfterA (n + 1) = rotStepA (rotAfterA n) := by
      rw [rotAfterA, rotAfterA, Function.iterate_succ_apply']
    rw [h, ih, rotStepA]
    push_cast
    ring

theorem rotAfterB_eq (n : ℕ) : rotAfterB n = ((n : ℝ) * 0.0008, (0 : ℝ)) := by
  induction n with
  | zero => simp [rotAfterB]
  | succ n ih =>
    have h : rotAfterB (n + 1) = rotStepB 0 0 (rotAfterB n) := by
      rw [rotAfterB, rotAfterB, Function.iterate_succ_apply']
    rw [h, ih, rotStepB]
    simp only [Prod.mk.injEq]
    constructor
    · push_cast; ring
    · norm_num

/-- Rotation about the y-axis preserves the squared norm. -/
theorem normSq_rotateY (θ : ℝ) (p : V3) : normSq (rotateY θ p) = normSq p := by
  simp only [normSq, rotateY]
  linear_combination (p.1 ^ 2 + p.2.2 ^ 2) * Real.sin_sq_add_cos_sq θ

theorem norm3_rotateY_nodeA (θ u v : ℝ) :
    norm3 (rotateY θ (nodePositionA u v)) = 201 / 200 :=
  norm3_eq_radius (by rw [normSq_rotateY]; exact normSq_spherical _ _ _)

theorem norm3_rotateY_nodeB (θ : ℝ) (i N : ℕ) :
    norm3 (rotateY θ (nodePositionB i N)) = 201 / 200 :=
  norm3_eq_radius (by rw [normSq_rotateY]; exact normSq_spherical' _ _ _)

end C5Lemmas

/-- **C5.** Starting from a freshly built scene with no pointer input, 100
frame-updater calls leave the rotation accumulator at exactly 100 × 0.002
(uniform variant) and 100 × 0.0008 (Fibonacci variant, whose x-rotation also
stays 0); each total already lies in `[0, 2π)`, so it equals its own
reduction mod 2π; and after every frame each node's displayed position — its
base position rotated about the fixed y-axis — still has norm equal to the
intended radius 1.005. -/
theorem frame_accumulator_and_sphere_radius :
    rotAfterA 100 = 100 * 0.002 ∧
    (0 ≤ (100 * 0.002 : ℝ) ∧ (100 * 0.002 : ℝ) < 2 * π) ∧
    rotAfterB 100 = (100 * 0.0008, 0) ∧
    (0 ≤ (100 * 0.0008 : ℝ) ∧ (100 * 0.0008 : ℝ) < 2 * π) ∧
    (∀ θ u v : ℝ, norm3 (rotateY θ (nodePositionA u v)) = 1.005) ∧
    (∀ (θ : ℝ) (i N : ℕ), norm3 (rotateY θ (nodePositionB i N)) = 1.005) := by
  have hpi := Real.pi_gt_three
  refine ⟨by rw [rotAfterA_eq]; norm_num, ⟨by norm_num, by nlinarith⟩,
    by rw [rotAfterB_eq]; norm_num, ⟨by norm_num, by nlinarith⟩, ?_, ?_⟩
  · intro θ u v
    rw [norm3_rotateY_nodeA]
    norm_num
  · intro θ i N
    rw [norm3_rotateY_nodeB]
    norm_num

/-- **C6.** In both the scene-build interpolation loops and the per-frame
curve-geometry recomputation, the division by `sin(angle)` is reached (a
point is emitted) exactly when the guard admits it: at build time iff
`sin(angle) < 0.001` fails (so the divisor is at least 0.001), and per frame
iff `sin(angle) > 0.001`; in particular whenever `sin(angle)` is below 0.001
the interpolation step is skipped and no division by a near-zero value ever
occurs — the embedded functions are total. -/
theorem interp_division_guarded (p1 p2 : V3) (t m : ℝ) :
    ((interpPointBuild p1 p2 t m).isSome ↔
      ¬ (Real.sin (Real.arccos (dotV p1 p2)) < 0.001)) ∧
    ((interpPointFrame p1 p2 t m).isSome ↔
      0.001 < Real.sin (Real.arccos (dotV p1 p2))) := by
  constructor
  · by_cases h : Real.sin (Real.arccos (dotV p1 p2)) < 0.001
    · simp [interpPointBuild, h]
    · simp [interpPointBuild, h]
  · by_cases h : 0.001 < Real.sin (Real.arccos (dotV p1 p2))
    · simp [interpPointFrame, h]
    · simp [interpPointFrame, h]

/-- **C7 counterexample.** On a throttled (odd) frame the node scale does
*not* keep the stale value computed on the last non-skipped frame: frame 2 at
time 0 (unit pulse speed, zero phase) computes scale `0.01·0.6 = 0.006`, but
frame 3 sets the pulse to the constant `1.0`, giving scale `0.01 ≠ 0.006` —
the scale is reset to its baseline, not left stale. -/
theorem node_scale_reset_on_skipped_frame :
    nodeScale 2 0 1 0 = 0.006 ∧ nodeScale 3 0.01 1 0 = 0.01 ∧
      (0.01 : ℝ) ≠ 0.006 := by
  refine ⟨?_, ?_, by norm_num⟩
  · rw [nodeScale, nodePulse, if_pos (by norm_num : 2 % 2 = 0),
      show (0 : ℝ) * 1 + 0 = 0 by norm_num, Real.sin_zero]
    norm_num
  · rw [nodeScale, nodePulse, if_neg (by norm_num : ¬ (3 % 2 = 0))]
    norm_num

/-- **C7 (amended).** On frames skipped by the every-2nd-frame throttle, the
node pulse is set to the constant `1.0` (scale `0.01`) — a baseline reset,
not a stale value — while the connection opacity and the node material's
emissive intensity are genuinely left at their previous values. -/
theorem throttled_frame_updates (f : ℕ) (time speed phase prev : ℝ)
    (hf : f % 2 ≠ 0) :
    nodePulse f time speed phase = 1 ∧
    nodeScale f time speed phase = 0.01 ∧
    connOpacity f time speed phase prev = prev ∧
    nodeEmissive f time prev = prev := by
  refine ⟨?_, ?_, ?_, ?_⟩
  · rw [nodePulse, if_neg hf]; norm_num
  · rw [nodeScale, nodePulse, if_neg hf]; norm_num
  · rw [connOpacity, if_neg hf]
  · rw [nodeEmissive, if_neg hf]

/-- Witness for C7's amended theorem at frame 1. -/
theorem throttled_frame_updates_witness :
    (1 % 2 ≠ 0) ∧
    (nodePulse 1 0 0 0 = 1 ∧ nodeScale 1 0 0 0 = 0.01 ∧
      connOpacity 1 0 0 0 0.42 = 0.42 ∧ nodeEmissive 1 0 0.42 = 0.42) :=
  ⟨by norm_num, throttled_frame_updates 1 0 0 0 0.42 (by norm_num)⟩

/-- **C8 (code evaluation).** On texture-fetch failure the uniform variant's
error callback — whose script declares the module-level `earth` — sets the
Earth material to the fixed fallback (color `0x2233ff`, emissive `0x112244`)
without raising, leaving all other state unchanged; but the Fibonacci
variant's script never declares `earth` (it uses `earthGroup`), so the same
callback dies with an uncaught `ReferenceError` and applies no fallback at
all. -/
theorem texture_error_fallback_behavior {ω : Type} (rest : ω) (m : EarthMaterial) :
    loadEarthTextureOnError declaredGlobalsA ⟨some m, rest⟩ =
      JsOutcome.ok ⟨some ⟨0x2233ff, 0x112244⟩, rest⟩ ∧
    loadEarthTextureOnError declaredGlobalsB (⟨some m, rest⟩ : TexSceneState ω) =
      JsOutcome.refError "earth" := by
  constructor
  · rw [loadEarthTextureOnError, if_pos (by decide : "earth" ∈ declaredGlobalsA)]
  · rw [loadEarthTextureOnError, if_neg (by decide : ¬ ("earth" ∈ declaredGlobalsB))]

/-- **C9 counterexample.** "The gap is strictly decreasing in magnitude for
every fixed pointer offset" fails at pointer offset 0: with the scene's
initial x-rotation 0 the gap is 0 and the update leaves it at 0 — its
magnitude is unchanged, not strictly smaller. -/
theorem pointer_gap_not_strictly_decreasing :
    rotXStep 0 0 = 0 ∧
      ¬ |(0 : ℝ) * 0.05 - rotXStep 0 0| < |(0 : ℝ) * 0.05 - 0| := by
  constructor
  · rw [rotXStep]; ring
  · rw [rotXStep]; norm_num

section C9Lemmas

/-- Each pointer-blend update multiplies the gap to the target by `1 - 0.05`
in absolute value. -/
theorem rotXStep_gap_abs (mouseY x : ℝ) :
    |mouseY * 0.05 - rotXStep mouseY x| = 0.95 * |mouseY * 0.05 - x| := by
  rw [show mouseY * 0.05 - rotXStep mouseY x = 0.95 * (mouseY * 0.05 - x) by
      rw [rotXStep]; ring,
    abs_mul, abs_of_pos (by norm_num : (0:ℝ) < 0.95)]

end C9Lemmas

/-- **C9 (amended).** The per-frame pointer blending applies
`value += (target − value) × k` with `k = 0.05 ∈ (0,1)` to the x-rotation:
each updater call multiplies the gap between the x-rotation and its target
`mouseY × 0.05` by exactly `1 − k`; hence the gap magnitude never increases,
decreases strictly whenever the gap is nonzero (for a zero gap it stays 0),
and decays geometrically — `|gap|` after `n` frames is `0.95ⁿ` times the
initial `|gap|` — so the x-rotation converges monotonically to the target. -/
theorem pointer_blend_exponential_smoothing (mouseY rotX : ℝ) :
    mouseY * 0.05 - rotXStep mouseY rotX = (1 - 0.05) * (mouseY * 0.05 - rotX) ∧
    |mouseY * 0.05 - rotXStep mouseY rotX| ≤ |mouseY * 0.05 - rotX| ∧
    (mouseY * 0.05 - rotX ≠ 0 →
      |mouseY * 0.05 - rotXStep mouseY rotX| < |mouseY * 0.05 - rotX|) ∧
    (∀ n : ℕ, |mouseY * 0.05 - (rotXStep mouseY)^[n] rotX| =
      0.95 ^ n * |mouseY * 0.05 - rotX|) := by
  refine ⟨by rw [rotXStep]; ring, ?_, ?_, ?_⟩
  · rw [rotXStep_gap_abs]
    nlinarith [abs_nonneg (mouseY * 0.05 - rotX)]
  · intro hne
    rw [rotXStep_gap_abs]
    have := abs_pos.mpr hne
    nlinarith
  · intro n
    induction n with
    | zero => simp
    | succ n ih =>
      rw [Function.iterate_succ_apply', rotXStep_gap_abs, ih]
      ring

/-- Witness for C9's amended theorem at pointer offset `mouseY = 1`,
x-rotation 0 (nonzero gap, strictly contracted). -/
theorem pointer_blend_exponential_smoothing_witness :
    ((1 : ℝ) * 0.05 - 0 ≠ 0) ∧
      |(1 : ℝ) * 0.05 - rotXStep 1 0| < |(1 : ℝ) * 0.05 - 0| :=
  ⟨by norm_num, (pointer_blend_exponential_smoothing 1 0).2.2.1 (by norm_num)⟩

section C10Lemmas

theorem jSub_none_left (x : Jv) : jSub none x = none := rfl

theorem jMul_none_left (x : Jv) : jMul none x = none := rfl

theorem jAdd_none_left (x : Jv) : jAdd none x = none := rfl

theorem jAdd_none_right (x : Jv) : jAdd x none = none := by cases x <;> rfl

/-- Once a star's x-velocity is NaN, one more ripple frame keeps it NaN and
makes the rendered x-position NaN, whatever the pointer does. -/
theorem rippleStep_nan (mx my ix iy : ℝ) (s : StarState) (h : s.vx = none) :
    (rippleStep mx my ix iy s).vx = none ∧ (rippleStep mx my ix iy s).px = none := by
  simp only [rippleStep]
  constructor
  · split_ifs with hdist
    · rw [h, jSub_none_left, jMul_none_left]
    · rw [h, jMul_none_left]
  · split_ifs with hdist
    · rw [h, jSub_none_left, jMul_none_left, jAdd_none_left, jAdd_none_right]
    · rw [h, jMul_none_left, jAdd_none_left, jAdd_none_right]

/-- Once a star's x-velocity is NaN, every later frame keeps the velocity
NaN and renders a NaN x-position, for any pointer trajectory. -/
theorem rippleFrames_nan (seq : ℕ → ℝ × ℝ) (ix iy : ℝ) :
    ∀ (n : ℕ) (s : StarState), s.vx = none →
      (rippleFrames seq ix iy (n + 1) s).vx = none ∧
      (rippleFrames seq ix iy (n + 1) s).px = none := by
  intro n
  induction n with
  | zero =>
    intro s h
    exact rippleStep_nan (seq 0).1 (seq 0).2 ix iy s h
  | succ n ih =>
    intro s h
    exact ih _ (rippleStep_nan (seq (n + 1)).1 (seq (n + 1)).2 ix iy s h).1

end C10Lemmas

/-- **C10.** The star-ripple force divides the cursor-to-star displacement by
its Euclidean distance guarded only by `dist < 3.0`, with no guard against
`dist = 0`: when the pointer's mapped world coordinates
`(mouseX·15, −mouseY·10)` coincide exactly with a star's base position (here
pointer `(0,0)` and base `(0,0)`, which the `(Math.random()−0.5)·25` sampling
can produce), the `0/0` division yields NaN in the star's velocity, and the
NaN then propagates into that star's velocity and rendered position on every
subsequent frame, for any pointer trajectory. -/
theorem star_ripple_nan_propagation :
    (rippleStep 0 0 0 0 ⟨some 0, some 0, some 0, some 0⟩).vx = none ∧
    (∀ (mx my ix iy : ℝ) (s : StarState), s.vx = none →
      (rippleStep mx my ix iy s).vx = none ∧ (rippleStep mx my ix iy s).px = none) ∧
    (∀ (seq : ℕ → ℝ × ℝ) (ix iy : ℝ) (n : ℕ) (s : StarState), s.vx = none →
      (rippleFrames seq ix iy (n + 1) s).vx = none ∧
      (rippleFrames seq ix iy (n + 1) s).px = none) := by
  refine ⟨?_, rippleStep_nan, rippleFrames_nan⟩
  simp only [rippleStep]
  rw [show (0 : ℝ) * 15 - 0 = 0 by norm_num, show -(0 : ℝ) * 10 - 0 = 0 by norm_num,
    show (0 : ℝ) * 0 + 0 * 0 = 0 by norm_num, Real.sqrt_zero,
    if_pos (by norm_num : (0 : ℝ) < 3)]
  rw [show jDiv (some (0 : ℝ)) (some (0 : ℝ)) = none by
      rw [jDiv]; exact if_pos rfl,
    jMul_none_left]
  rfl

/-- Witness for C10's propagation conjuncts at a concrete NaN-velocity star
state and concrete pointer values. -/
theorem star_ripple_nan_propagation_witness :
    ((⟨none, some 0, some 0, some 0⟩ : StarState).vx = none) ∧
    ((rippleStep 1 2 3 4 ⟨none, some 0, some 0, some 0⟩).vx = none ∧
      (rippleStep 1 2 3 4 ⟨none, some 0, some 0, some 0⟩).px = none) ∧
    ((rippleFrames (fun _ => (1, 2)) 3 4 (0 + 1)
        ⟨none, some 0, some 0, some 0⟩).vx = none ∧
      (rippleFrames (fun _ => (1, 2)) 3 4 (0 + 1)
        ⟨none, some 0, some 0, some 0⟩).px = none) :=
  ⟨rfl,
    star_ripple_nan_propagation.2.1 1 2 3 4 ⟨none, some 0, some 0, some 0⟩ rfl,
    star_ripple_nan_propagation.2.2 (fun _ => (1, 2)) 3 4 0
      ⟨none, some 0, some 0, some 0⟩ rfl⟩
